import Mathlib

/-!
Verification development for the Antigravity2api repository.

Shallow embedding of the two subsystems the claims are about:
* the Token Pool Manager (`src/auth/token_manager.js`, provided as
  `src/unnamed/part_000`): rotation ring over OAuth credentials with
  refresh / disable / persist logic;
* the chat-completions handler of `src/server/index.js`: delivery-mode
  selection (real streaming, fake streaming, non-streaming) and the
  error paths of the request pipeline.

Side effects are made explicit: the `accounts.json` file is the `store`
field of `Sys`, network refresh outcomes and storage success flags come
from an `Env` record, timer fires and upstream responses are inputs of
the request handler.  `refresh_token` is the identity key of a
credential (unique across the store, as the data model states).
-/

namespace Antigravity

/-- A credential as persisted in `accounts.json`.  JS-falsy absence of
`timestamp` / `expires_in` is modelled by `0`, an absent `projectId` by
`""`, an absent `enable` field by `true` (the code tests
`enable !== false`). -/
structure StoredToken where
  refresh_token : String
  access_token : String
  timestamp : Nat
  expires_in : Nat
  enable : Bool
  projectId : String
deriving DecidableEq

/-- An in-memory pool entry: a stored credential plus the process-local
`sessionId` generated at load time. -/
structure PoolToken extends StoredToken where
  sessionId : Nat
deriving DecidableEq

/-- Outcome of the OAuth refresh exchange for one credential, keyed by
its refresh token (the `fetch` in `refreshToken`). -/
inductive RefreshResult where
  | ok (access : String) (expires : Nat)
  | fail (statusCode : Nat)
deriving DecidableEq

/-- External-world parameters of one operation: refresh outcomes per
refresh token, whether the storage write / read succeeds, the id
generators, and the current clock. -/
structure Env where
  refreshResult : String → RefreshResult
  writeOk : Bool
  readOk : Bool
  genProj : Nat → String
  genSess : Nat → Nat
  now : Nat

/-- The mutable state of the `TokenManager` singleton together with the
persisted store (`this.filePath`'s contents). -/
structure Sys where
  store : List StoredToken
  cachedData : Option (List StoredToken)
  tokens : List PoolToken
  currentIndex : Nat
  lastLoadTime : Nat
  usageStats : List (String × Nat × Nat)
deriving DecidableEq

/-- `tokenArray.map` in `initManager`: assign a generated `projectId` to
every entry that lacks one. -/
def assignProjectIds (genProj : Nat → String) : Nat → List StoredToken → List StoredToken
  | _, [] => []
  | i, t :: ts =>
      (if t.projectId = "" then { t with projectId := genProj i } else t) ::
        assignProjectIds genProj (i + 1) ts

/-- The `.map(token => ({...token, sessionId: generateSessionId()}))`
step of `initManager`. -/
def assignSessions (genSess : Nat → Nat) : Nat → List StoredToken → List PoolToken
  | _, [] => []
  | i, t :: ts => { toStoredToken := t, sessionId := genSess i } :: assignSessions genSess (i + 1) ts

/-- `TokenManager.initialize` (named `initManager` here): read the
store, assign missing project ids (persisting if any were assigned),
keep entries with `enable !== false`, attach fresh session ids, reset
the cursor, stamp the load time.  The read, the `needSave`
`writeFileSync` and all state updates sit in one `try`, and the catch
block only clears `this.tokens`: so BOTH a read failure and a failure
of the `needSave` write leave the store, cache, cursor and load time as
they were and empty the pool. -/
def initManager (e : Env) (s : Sys) : Sys :=
  if e.readOk then
    let tokenArray := assignProjectIds e.genProj 0 s.store
    let needSave := s.store.any (fun t => t.projectId == "")
    if needSave && !e.writeOk then
      { s with tokens := [] }
    else
      { s with
        store := if needSave then tokenArray else s.store
        cachedData := some tokenArray
        tokens := assignSessions e.genSess 0 (tokenArray.filter (fun t => t.enable))
        currentIndex := 0
        lastLoadTime := e.now }
  else
    { s with tokens := [] }

/-- `TokenManager.loadTokens`: skip the re-read while the cache is
younger than 60s and the pool is non-empty. -/
def loadTokens (e : Env) (s : Sys) : Sys :=
  if e.now - s.lastLoadTime < 60000 ∧ 0 < s.tokens.length then s else initManager e s

/-- `TokenManager.isExpired`: missing issuance data means expired;
otherwise expired from 5 minutes before `timestamp + expires_in*1000`.
Truncated `Nat` subtraction agrees with the JS comparison because
`now ≥ 0`. -/
def isExpired (now : Nat) (t : PoolToken) : Bool :=
  if t.timestamp == 0 || t.expires_in == 0 then true
  else decide (t.timestamp + t.expires_in * 1000 - 300000 ≤ now)

/-- One step of `saveToFile`'s `forEach`: overwrite the first stored
entry with the same `refresh_token` by the in-memory token minus its
`sessionId`. -/
def updateStored (all : List StoredToken) (mt : PoolToken) : List StoredToken :=
  match all.findIdx? (fun u => u.refresh_token == mt.refresh_token) with
  | some i => all.set i mt.toStoredToken
  | none => all

/-- `TokenManager.saveToFile`: fold the in-memory tokens into the
cached collection and write it back.  When the cache is present,
`allTokens` aliases `this.cachedData`, so the entry updates survive
even when the write throws and only the persisted `store` is left
unchanged.  When the cache is absent, `allTokens` is a freshly parsed
local array: a failing write (or a failing fallback read, observably
the same) reaches the catch with nothing changed — the cache stays
empty and nothing is persisted. -/
def saveToFile (writeOk : Bool) (s : Sys) : Sys :=
  match s.cachedData with
  | some d =>
    let updated := s.tokens.foldl updateStored d
    if writeOk then { s with store := updated, cachedData := some updated }
    else { s with cachedData := some updated }
  | none =>
    let updated := s.tokens.foldl updateStored s.store
    if writeOk then { s with store := updated, cachedData := some updated }
    else s

/-- `TokenManager.disableToken`: flag the credential disabled, persist,
drop it from the in-memory pool, clamp the cursor modulo the new length
(with the `Math.max(…,1)` guard). -/
def disableToken (writeOk : Bool) (s : Sys) (token : PoolToken) : Sys :=
  let s1 := { s with tokens := s.tokens.map fun u =>
      if u.refresh_token == token.refresh_token then { u with enable := false } else u }
  let s2 := saveToFile writeOk s1
  let newTokens := s2.tokens.filter fun u => u.refresh_token != token.refresh_token
  { s2 with tokens := newTokens, currentIndex := s2.currentIndex % max newTokens.length 1 }

/-- `TokenManager.recordUsage`: bump the per-refresh-token request count
and last-used stamp. -/
def recordUsage (now : Nat) (s : Sys) (t : PoolToken) : Sys :=
  if s.usageStats.any (fun p => p.1 == t.refresh_token) then
    { s with usageStats := s.usageStats.map fun p =>
        if p.1 == t.refresh_token then (p.1, p.2.1 + 1, now) else p }
  else
    { s with usageStats := (t.refresh_token, 1, now) :: s.usageStats }

/-- Successful `refreshToken` applied to the pool entry at index `i`:
mutate `access_token` / `expires_in` / `timestamp` in place, then
persist via `saveToFile`. -/
def refreshAt (e : Env) (s : Sys) (i : Nat) (t : PoolToken) (access : String) (expires : Nat) :
    PoolToken × Sys :=
  let tok2 := { t with access_token := access, expires_in := expires, timestamp := e.now }
  (tok2, saveToFile e.writeOk { s with tokens := s.tokens.set i tok2 })

/-- The `for (let i = 0; i < totalTokens; i++)` loop of
`TokenManager.getToken`, with the remaining iteration count as fuel.
The `none` row for an out-of-range cursor is unreachable under the
cursor invariant but keeps the function total. -/
def getTokenLoop (e : Env) : Nat → Sys → Option PoolToken × Sys
  | 0, s => (none, s)
  | Nat.succ i, s =>
    match s.tokens[s.currentIndex]? with
    | none => (none, s)
    | some token =>
      if isExpired e.now token then
        match e.refreshResult token.refresh_token with
        | .ok access expires =>
          let ts1 := refreshAt e s s.currentIndex token access expires
          let s2 := { ts1.2 with currentIndex := (ts1.2.currentIndex + 1) % ts1.2.tokens.length }
          (some ts1.1, recordUsage e.now s2 ts1.1)
        | .fail code =>
          if code == 403 || code == 400 then
            let s1 := disableToken e.writeOk s token
            if s1.tokens.length = 0 then (none, s1)
            else getTokenLoop e i s1
          else
            getTokenLoop e i { s with currentIndex := (s.currentIndex + 1) % s.tokens.length }
      else
        let s1 := { s with currentIndex := (s.currentIndex + 1) % s.tokens.length }
        (some token, recordUsage e.now s1 token)

/-- `TokenManager.getToken`: ensure pool freshness, return `null` on an
empty pool, otherwise run the rotation loop for at most pool-size
iterations. -/
def getToken (e : Env) (s : Sys) : Option PoolToken × Sys :=
  let s0 := loadTokens e s
  if s0.tokens.length = 0 then (none, s0)
  else getTokenLoop e s0.tokens.length s0

/-- `TokenManager.handleRequestError`: on a 403 completion failure, if
the credential at the cursor still carries the failing access token try
one refresh (disable + rotate when the refresh itself 403s), otherwise
delegate to `getToken`. -/
def handleRequestError (e : Env) (errStatus : Nat) (currentAccessToken : String) (s : Sys) :
    Option PoolToken × Sys :=
  if errStatus == 403 then
    match s.tokens[s.currentIndex]? with
    | some currentToken =>
      if currentToken.access_token == currentAccessToken then
        match e.refreshResult currentToken.refresh_token with
        | .ok access expires =>
          let ts1 := refreshAt e s s.currentIndex currentToken access expires
          (some ts1.1, ts1.2)
        | .fail code =>
          if code == 403 then
            getToken e (disableToken e.writeOk s currentToken)
          else
            getToken e s
      else getToken e s
    | none => getToken e s
  else (none, s)

/-! ## The chat-completions handler (`src/server/index.js`) -/

/-- One element of the request's `messages` array.  `content = ""`
models a JS-falsy (absent or empty) content, matching the truthiness
test in the short-message heuristic. -/
structure Msg where
  role : String
  content : String
deriving DecidableEq

/-- The parsed request body fields the handler destructures.  `none`
for `streamField` models an omitted `stream` field (the destructuring
default is `true`). -/
structure ChatRequest where
  messages : Option (List Msg)
  model : String
  streamField : Option Bool
deriving DecidableEq

/-- A fragment delivered by `generateAssistantResponse`'s callback:
either a content delta or a tool-calls delta. -/
inductive CbEvent where
  | content (s : String)
  | toolCalls (tc : List String)
deriving DecidableEq

/-- The behaviour of the external Upstream Requester and of the
heartbeat timer during one request: the blocking call's outcome, the
callback fragments then the completion outcome of the streaming call,
and how many 3-second heartbeat periods elapse while the blocking call
is awaited in fake-streaming mode. -/
structure UpstreamBehavior where
  blocking : Except String (String × List String)
  streamEvents : List CbEvent
  streamResult : Except String Unit
  heartbeats : Nat

/-- One SSE `data:` chunk written by the handler, identified by its
delta shape. -/
inductive Chunk where
  | role
  | heartbeat
  | toolCalls (tc : List String)
  | content (s : String)
  | finish (reason : String)
  | done
deriving DecidableEq

/-- A JSON body sent via `res.json`. -/
inductive RespBody where
  | errorBody (msg : String)
  | completion (content : String) (toolCalls : List String) (finishReason : String)
deriving DecidableEq

/-- What the client observes for one request: HTTP status, whether SSE
headers were set, the ordered chunk writes, the JSON body if any, and
whether `res.end()` was ever called (a response with `ended = false`
leaves the connection open). -/
structure HttpResponse where
  status : Nat
  sse : Bool
  chunks : List Chunk
  body : Option RespBody
  ended : Bool
deriving DecidableEq

/-- Whether `pat` occurs as a contiguous subsequence of `l` — the
`String.prototype.includes` test, on character lists so that concrete
instances evaluate. -/
def containsSeq (pat : List Char) : List Char → Bool
  | [] => pat.isEmpty
  | c :: tl => pat.isPrefixOf (c :: tl) || containsSeq pat tl

/-- The fake-streaming marker `假流式/` (4 characters). -/
def fakeMarker : List Char := "假流式/".data

/-- `model.startsWith('假流式/')`. -/
def isFakeStreaming (model : String) : Bool := fakeMarker.isPrefixOf model.data

/-- `model.slice('假流式/'.length)` when the marker is present. -/
def actualModelOf (model : String) : List Char :=
  if isFakeStreaming model then model.data.drop 4 else model.data

/-- `actualModel.includes('-image')`. -/
def isImageModel (actualModel : List Char) : Bool := containsSeq "-image".data actualModel

/-- The NewAPI speed-test heuristic: exactly one message whose content
is truthy and shorter than 20 characters. -/
def isSingleShortMessage (messages : List Msg) : Bool :=
  match messages with
  | [m] => m.content != "" && decide (m.content.length < 20)
  | _ => false

/-- The effective streaming flag: default `true` when omitted, forced
to `false` for a single short message when the field was omitted. -/
def effectiveStream (req : ChatRequest) (messages : List Msg) : Bool :=
  let stream := req.streamField.getD true
  if isSingleShortMessage messages && req.streamField.isNone then false else stream

/-- The error message thrown when the pool yields no credential. -/
def noTokenMsg : String := "没有可用的token，请运行 npm run login 获取token"

/-- The outer catch handler's streaming arm: SSE headers, an error
rendered as a content chunk, a `stop` finish chunk, the terminator.
The HTTP status stays 200 because the catch never sets one. -/
def sseCatchResponse (msg : String) : HttpResponse :=
  { status := 200, sse := true
    chunks := [.content ("错误: " ++ msg), .finish "stop", .done]
    body := none, ended := true }

/-- The chunk sequence of the fake-streaming branch: role announcement,
one heartbeat per elapsed 3-second period, then — after the interval is
cleared — either the tool-calls / content / finish chunks or the inner
catch's error rendering, and the terminator. -/
def fakeStreamChunks (heartbeats : Nat) (blocking : Except String (String × List String)) :
    List Chunk :=
  Chunk.role :: (List.replicate heartbeats Chunk.heartbeat ++
    match blocking with
    | .ok (content, toolCalls) =>
        (if toolCalls.isEmpty then [] else [Chunk.toolCalls toolCalls]) ++
        (if content == "" then [] else [Chunk.content content]) ++
        [Chunk.finish (if toolCalls.isEmpty then "stop" else "tool_calls"), Chunk.done]
    | .error e => [Chunk.content ("Error: " ++ e), Chunk.finish "stop", Chunk.done])

/-- The chunk written for one streaming callback fragment. -/
def chunkOfEvent : CbEvent → Chunk
  | .content s => Chunk.content s
  | .toolCalls tc => Chunk.toolCalls tc

/-- `POST /v1/chat/completions`: the full handler, including its catch
clause.  Inputs are the parsed body, the credential the Token Pool
Manager yielded (`none` when `getToken()` returned null), and the
Upstream Requester's behaviour.  Note that the no-token throw happens
before the short-message override runs, so the catch sees the
pre-override streaming flag there. -/
def chatCompletions (req : ChatRequest) (token : Option PoolToken) (up : UpstreamBehavior) :
    HttpResponse :=
  match req.messages with
  | none =>
    { status := 400, sse := false, chunks := []
      body := some (.errorBody "messages is required"), ended := true }
  | some messages =>
    match token with
    | none =>
      if req.streamField.getD true then sseCatchResponse noTokenMsg
      else { status := 500, sse := false, chunks := []
             body := some (.errorBody noTokenMsg), ended := true }
    | some _tok =>
      let isFake := isFakeStreaming req.model
      let isImage := isImageModel (actualModelOf req.model)
      let stream := effectiveStream req messages
      if isFake && stream then
        { status := 200, sse := true, chunks := fakeStreamChunks up.heartbeats up.blocking
          body := none, ended := true }
      else if stream then
        if isImage then
          match up.blocking with
          | .ok (content, _) =>
            { status := 200, sse := true
              chunks := [.content content, .finish "stop", .done], body := none, ended := true }
          | .error e => sseCatchResponse e
        else
          let evChunks := up.streamEvents.map chunkOfEvent
          let hasToolCall := up.streamEvents.any fun ev =>
            match ev with | .toolCalls _ => true | _ => false
          match up.streamResult with
          | .ok _ =>
            { status := 200, sse := true
              chunks := evChunks ++ [.finish (if hasToolCall then "tool_calls" else "stop"), .done]
              body := none, ended := true }
          | .error e =>
            if evChunks.isEmpty then sseCatchResponse e
            else
              { status := 200, sse := true, chunks := evChunks, body := none, ended := false }
      else
        match up.blocking with
        | .ok (content, toolCalls) =>
          { status := 200, sse := false, chunks := []
            body := some (.completion content toolCalls
              (if toolCalls.isEmpty then "stop" else "tool_calls"))
            ended := true }
        | .error e =>
          { status := 500, sse := false, chunks := [], body := some (.errorBody e), ended := true }

/-- Chunk classifiers used to state the heartbeat-ordering property. -/
def isFinishChunk : Chunk → Bool
  | .finish _ => true
  | _ => false

/-- Whether a chunk is a heartbeat (empty-delta keep-alive). -/
def isHeartbeatChunk : Chunk → Bool
  | .heartbeat => true
  | _ => false

/-- Whether a chunk carries a content delta. -/
def isContentChunk : Chunk → Bool
  | .content _ => true
  | _ => false

/-- Scans a chunk list and checks that no heartbeat occurs at or after
the first finish chunk. -/
def noHeartbeatAfterFinish (seenFinish : Bool) : List Chunk → Bool
  | [] => true
  | c :: cs =>
    if seenFinish && isHeartbeatChunk c then false
    else noHeartbeatAfterFinish (seenFinish || isFinishChunk c) cs

/-! ## Basic state-projection lemmas -/

theorem saveToFile_tokens (w : Bool) (s : Sys) : (saveToFile w s).tokens = s.tokens := by
  unfold saveToFile; split <;> dsimp only <;> split <;> rfl

theorem saveToFile_currentIndex (w : Bool) (s : Sys) :
    (saveToFile w s).currentIndex = s.currentIndex := by
  unfold saveToFile; split <;> dsimp only <;> split <;> rfl

theorem saveToFile_lastLoadTime (w : Bool) (s : Sys) :
    (saveToFile w s).lastLoadTime = s.lastLoadTime := by
  unfold saveToFile; split <;> dsimp only <;> split <;> rfl

theorem saveToFile_store_of_failure (s : Sys) : (saveToFile false s).store = s.store := by
  unfold saveToFile; split <;> rfl

theorem recordUsage_tokens (now : Nat) (s : Sys) (t : PoolToken) :
    (recordUsage now s t).tokens = s.tokens := by
  unfold recordUsage; split <;> rfl

theorem recordUsage_currentIndex (now : Nat) (s : Sys) (t : PoolToken) :
    (recordUsage now s t).currentIndex = s.currentIndex := by
  unfold recordUsage; split <;> rfl

theorem recordUsage_lastLoadTime (now : Nat) (s : Sys) (t : PoolToken) :
    (recordUsage now s t).lastLoadTime = s.lastLoadTime := by
  unfold recordUsage; split <;> rfl

theorem recordUsage_store (now : Nat) (s : Sys) (t : PoolToken) :
    (recordUsage now s t).store = s.store := by
  unfold recordUsage; split <;> rfl

/-- Disabling rewrites the pool to the sub-pool of entries with a
different refresh token: the enable-flag map touches exactly the entries
the filter then drops. -/
theorem filterDisabled (x : String) (l : List PoolToken) :
    ((l.map fun u => if u.refresh_token == x then { u with enable := false } else u).filter
      fun u => u.refresh_token != x) = l.filter fun u => u.refresh_token != x := by
  induction l with
  | nil => rfl
  | cons a l ih =>
    rw [List.map_cons, List.filter_cons, List.filter_cons]
    by_cases h : a.refresh_token = x
    · have hb : (a.refresh_token == x) = true := by simp [h]
      rw [if_pos hb]
      have h1 : (({ a with enable := false } : PoolToken).refresh_token != x) = false := by
        simp [bne, h]
      have h2 : (a.refresh_token != x) = false := by simp [bne, h]
      rw [h1]
      rw [if_neg (show ¬(false = true) by decide), if_neg (show ¬(false = true) by decide)]
      exact ih
    · have hb : (a.refresh_token == x) = false := by simp [h]
      rw [if_neg (show ¬((a.refresh_token == x) = true) by simp [hb]), ih]

theorem disableToken_tokens (w : Bool) (s : Sys) (t : PoolToken) :
    (disableToken w s t).tokens = s.tokens.filter fun u => u.refresh_token != t.refresh_token := by
  unfold disableToken
  simp only [saveToFile_tokens]
  exact filterDisabled t.refresh_token s.tokens

theorem disableToken_currentIndex (w : Bool) (s : Sys) (t : PoolToken) :
    (disableToken w s t).currentIndex =
      s.currentIndex % max (disableToken w s t).tokens.length 1 := by
  unfold disableToken
  simp only [saveToFile_tokens, saveToFile_currentIndex]

theorem disableToken_lastLoadTime (w : Bool) (s : Sys) (t : PoolToken) :
    (disableToken w s t).lastLoadTime = s.lastLoadTime := by
  unfold disableToken
  simp only [saveToFile_tokens, saveToFile_lastLoadTime]

/-- Removing an element that fails the filter predicate strictly
shrinks the list. -/
theorem filter_length_lt {α : Type} (p : α → Bool) (l : List α) (a : α) (ha : a ∈ l)
    (hpa : p a = false) : (l.filter p).length < l.length := by
  induction l with
  | nil => cases ha
  | cons b l ih =>
    rcases List.mem_cons.mp ha with rfl | hal
    · rw [List.filter_cons, hpa]
      exact Nat.lt_succ_of_le (List.length_filter_le p l)
    · rw [List.filter_cons]
      by_cases hb : p b
      · simpa [hb] using Nat.succ_lt_succ (ih hal)
      · simp only [hb, if_false]
        exact Nat.lt_succ_of_lt (ih hal)

/-! ## C3: storage-failure semantics -/

/-- Sample data used by concrete instantiations below. -/
def sampleStored : StoredToken :=
  { refresh_token := "ra", access_token := "aa", timestamp := 1000000, expires_in := 3600,
    enable := true, projectId := "pa" }

/-- A sample in-memory pool entry. -/
def sampleTok : PoolToken := { toStoredToken := sampleStored, sessionId := 1 }

/-- A sample environment whose storage read fails. -/
def envReadFail : Env :=
  { refreshResult := fun _ => .fail 500, writeOk := true, readOk := false,
    genProj := fun _ => "gp", genSess := fun _ => 9, now := 2000000 }

/-- A sample manager state with one pool entry. -/
def sysOne : Sys :=
  { store := [sampleStored], cachedData := some [sampleStored], tokens := [sampleTok],
    currentIndex := 0, lastLoadTime := 1990000, usageStats := [] }

/-- C3 counterexample: a storage read failure during load does NOT
leave the in-memory pool unchanged — the catch block of
`TokenManager.initialize` clears `this.tokens`, so a one-entry pool
becomes empty. -/
theorem load_read_failure_clears_pool :
    (initManager envReadFail sysOne).tokens ≠ sysOne.tokens ∧
    (initManager envReadFail sysOne).tokens = [] := by
  constructor
  · intro h
    simp only [initManager, envReadFail, if_neg] at h
    exact absurd (congrArg List.length h) (by decide)
  · rfl

/-- C3 amended: storage failures are reported, not retried.  A write
failure during refresh or disable (`saveToFile`'s catch) leaves the
in-memory pool, cursor, persisted store and load time unchanged by the
failed save itself.  Storage failures during LOAD, however, do not
leave the pool unchanged: both a read failure and a failure of the
write that persists newly assigned project ids reach `initialize`'s
catch, which clears the in-memory pool to empty while leaving the
persisted store, cache, cursor and load time as they were. -/
theorem storage_failure_semantics (e : Env) (s : Sys) :
    (saveToFile false s).tokens = s.tokens ∧
    (saveToFile false s).currentIndex = s.currentIndex ∧
    (saveToFile false s).store = s.store ∧
    (saveToFile false s).lastLoadTime = s.lastLoadTime ∧
    (e.readOk = false →
      (initManager e s).tokens = [] ∧
      (initManager e s).store = s.store ∧
      (initManager e s).cachedData = s.cachedData ∧
      (initManager e s).currentIndex = s.currentIndex ∧
      (initManager e s).lastLoadTime = s.lastLoadTime) ∧
    (e.readOk = true → e.writeOk = false →
      s.store.any (fun t => t.projectId == "") = true →
      (initManager e s).tokens = [] ∧
      (initManager e s).store = s.store ∧
      (initManager e s).cachedData = s.cachedData ∧
      (initManager e s).currentIndex = s.currentIndex ∧
      (initManager e s).lastLoadTime = s.lastLoadTime) := by
  refine ⟨saveToFile_tokens false s, saveToFile_currentIndex false s,
    saveToFile_store_of_failure s, saveToFile_lastLoadTime false s, ?_, ?_⟩
  · intro hr
    refine ⟨?_, ?_, ?_, ?_, ?_⟩ <;> simp [initManager, hr]
  · intro hr hw hns
    refine ⟨?_, ?_, ?_, ?_, ?_⟩ <;> simp [initManager, hr, hw, hns]

/-- A credential record without a `projectId`, forcing the `needSave`
write during load. -/
def sampleStoredNoProj : StoredToken :=
  { refresh_token := "rnp", access_token := "anp", timestamp := 1000000, expires_in := 3600,
    enable := true, projectId := "" }

/-- An environment whose storage reads succeed but whose writes fail. -/
def envWriteFail : Env :=
  { refreshResult := fun _ => .fail 500, writeOk := false, readOk := true,
    genProj := fun _ => "gp", genSess := fun _ => 9, now := 2000000 }

/-- A manager state whose store holds a credential without a
`projectId`. -/
def sysNoProj : Sys :=
  { store := [sampleStoredNoProj], cachedData := some [sampleStoredNoProj],
    tokens := [{ toStoredToken := sampleStoredNoProj, sessionId := 1 }],
    currentIndex := 0, lastLoadTime := 1990000, usageStats := [] }

/-- Witness for the amended C3 at concrete states: a failed save, a
failed read during load, and a failed `needSave` write during load. -/
theorem storage_failure_semantics_witness :
    (saveToFile false sysOne).tokens = sysOne.tokens ∧
    (initManager envReadFail sysOne).tokens = [] ∧
    ((initManager envWriteFail sysNoProj).tokens = [] ∧
      (initManager envWriteFail sysNoProj).store = sysNoProj.store ∧
      (initManager envWriteFail sysNoProj).currentIndex = sysNoProj.currentIndex) := by
  have h1 := storage_failure_semantics envReadFail sysOne
  have h2 := storage_failure_semantics envWriteFail sysNoProj
  have h2w := h2.2.2.2.2.2 rfl rfl (by decide)
  exact ⟨h1.1, (h1.2.2.2.2.1 rfl).1, h2w.1, h2w.2.1, h2w.2.2.2.1⟩

/-! ## C8: the rotation-cursor invariant -/

/-- The invariant of the Rotation Cursor: in range whenever the pool is
non-empty. -/
def cursorInv (s : Sys) : Prop := s.tokens ≠ [] → s.currentIndex < s.tokens.length

theorem disableToken_cursorInv (w : Bool) (s : Sys) (t : PoolToken) :
    cursorInv (disableToken w s t) := by
  intro hne
  rw [disableToken_currentIndex]
  have hlen : 0 < (disableToken w s t).tokens.length := List.length_pos.mpr hne
  rw [Nat.max_eq_left hlen]
  exact Nat.mod_lt _ hlen

theorem initManager_cursorInv (e : Env) (s : Sys) : cursorInv (initManager e s) := by
  intro hne
  cases hr : e.readOk with
  | false => simp [initManager, hr] at hne
  | true =>
    cases hns : (s.store.any (fun u => u.projectId == "") && !e.writeOk) with
    | true => simp [initManager, hr, hns] at hne
    | false =>
      simp only [initManager, hr, if_true, hns, Bool.false_eq_true, if_false] at hne ⊢
      exact List.length_pos.mpr hne

theorem loadTokens_cursorInv (e : Env) (s : Sys) (h : cursorInv s) :
    cursorInv (loadTokens e s) := by
  unfold loadTokens
  split
  · exact h
  · exact initManager_cursorInv e s

theorem getTokenLoop_cursorInv (e : Env) :
    ∀ fuel s, cursorInv s → cursorInv (getTokenLoop e fuel s).2 := by
  intro fuel
  induction fuel with
  | zero => exact fun s h => h
  | succ n ih =>
    intro s h
    cases hg : s.tokens[s.currentIndex]? with
    | none => simpa [getTokenLoop, hg] using h
    | some token =>
      have hidx : s.currentIndex < s.tokens.length := (List.getElem?_eq_some_iff.mp hg).1
      have hpos : 0 < s.tokens.length := Nat.lt_of_le_of_lt (Nat.zero_le _) hidx
      cases hex : isExpired e.now token with
      | false =>
        simp only [getTokenLoop, hg, hex, Bool.false_eq_true, if_false]
        intro _
        simp only [recordUsage_tokens, recordUsage_currentIndex]
        exact Nat.mod_lt _ hpos
      | true =>
        cases hr : e.refreshResult token.refresh_token with
        | ok a ex =>
          simp only [getTokenLoop, hg, hex, if_true, hr]
          intro _
          simp only [recordUsage_tokens, recordUsage_currentIndex, refreshAt, saveToFile_tokens]
          have : 0 < (s.tokens.set s.currentIndex
              { token with access_token := a, expires_in := ex, timestamp := e.now }).length := by
            simpa using hpos
          exact Nat.mod_lt _ this
        | fail code =>
          simp only [getTokenLoop, hg, hex, if_true, hr]
          cases hb : (code == 403 || code == 400) with
          | true =>
            simp only [hb, if_true]
            split
            · exact disableToken_cursorInv e.writeOk _ token
            · exact ih _ (disableToken_cursorInv e.writeOk _ token)
          | false =>
            simp only [hb, Bool.false_eq_true, if_false]
            refine ih _ ?_
            intro _
            exact Nat.mod_lt _ hpos

theorem getToken_cursorInv (e : Env) (s : Sys) (h : cursorInv s) :
    cursorInv (getToken e s).2 := by
  have h0 := loadTokens_cursorInv e s h
  unfold getToken
  show cursorInv (if (loadTokens e s).tokens.length = 0 then ((none : Option PoolToken), loadTokens e s)
    else getTokenLoop e (loadTokens e s).tokens.length (loadTokens e s)).2
  split
  · exact h0
  · exact getTokenLoop_cursorInv e _ _ h0

/-- The pool is untouched and the cursor advances by one modulo the
pool length on the fast path of `getToken`: fresh cache, in-range
cursor, credential at the cursor valid.  Shared by several claims. -/
theorem getToken_step (e : Env) (s : Sys)
    (hfresh : e.now - s.lastLoadTime < 60000)
    (hidx : s.currentIndex < s.tokens.length)
    (hval : ∀ t ∈ s.tokens, isExpired e.now t = false) :
    (getToken e s).1 = s.tokens[s.currentIndex]? ∧
    (getToken e s).2.tokens = s.tokens ∧
    (getToken e s).2.currentIndex = (s.currentIndex + 1) % s.tokens.length ∧
    (getToken e s).2.lastLoadTime = s.lastLoadTime ∧
    (getToken e s).2.store = s.store := by
  have hpos : 0 < s.tokens.length := Nat.lt_of_le_of_lt (Nat.zero_le _) hidx
  have hload : loadTokens e s = s := by
    unfold loadTokens
    rw [if_pos ⟨hfresh, hpos⟩]
  have hg : s.tokens[s.currentIndex]? = some (s.tokens.get ⟨s.currentIndex, hidx⟩) := by
    rw [List.get_eq_getElem]
    exact List.getElem?_eq_getElem hidx
  have hex : isExpired e.now (s.tokens.get ⟨s.currentIndex, hidx⟩) = false :=
    hval _ (List.get_mem s.tokens s.currentIndex hidx)
  obtain ⟨n, hn⟩ : ∃ n, s.tokens.length = n + 1 := ⟨s.tokens.length - 1, by omega⟩
  unfold getToken
  simp only [hload, hn, if_neg (by omega : ¬ (n + 1) = 0)]
  simp only [getTokenLoop, hg, hex, Bool.false_eq_true, if_false]
  refine ⟨?_, ?_, ?_, ?_, ?_⟩ <;>
    simp [recordUsage_tokens, recordUsage_currentIndex, recordUsage_lastLoadTime,
      recordUsage_store, hn]

/-- C8: the rotation cursor satisfies `0 <= cursor < len(pool)` whenever
the pool is non-empty, and every operation preserves this: a load that
completes (does not hit the catch) resets the cursor to 0, while a load
that fails empties the pool (making the invariant vacuous) and leaves
the cursor; a dispatch on the fast path advances the cursor modulo the
pool length; and a disablement removes the credential and clamps the
cursor modulo the new pool length. -/
theorem rotation_cursor_invariant (e : Env) (s : Sys) (t : PoolToken) (h : cursorInv s) :
    cursorInv (getToken e s).2 ∧
    (e.readOk = true →
      (s.store.any (fun u => u.projectId == "") && !e.writeOk) = false →
      (initManager e s).currentIndex = 0) ∧
    (e.readOk = false ∨ (s.store.any (fun u => u.projectId == "") && !e.writeOk) = true →
      (initManager e s).tokens = [] ∧ (initManager e s).currentIndex = s.currentIndex) ∧
    cursorInv (initManager e s) ∧
    ((disableToken e.writeOk s t).tokens =
      s.tokens.filter fun u => u.refresh_token != t.refresh_token) ∧
    (disableToken e.writeOk s t).currentIndex =
      s.currentIndex % max (disableToken e.writeOk s t).tokens.length 1 ∧
    cursorInv (disableToken e.writeOk s t) ∧
    (e.now - s.lastLoadTime < 60000 → s.currentIndex < s.tokens.length →
      (∀ u ∈ s.tokens, isExpired e.now u = false) →
      (getToken e s).2.currentIndex = (s.currentIndex + 1) % s.tokens.length) := by
  refine ⟨getToken_cursorInv e s h, ?_, ?_, initManager_cursorInv e s,
    disableToken_tokens e.writeOk s t, disableToken_currentIndex e.writeOk s t,
    disableToken_cursorInv e.writeOk s t, ?_⟩
  · intro hr hns
    simp [initManager, hr, hns]
  · rintro (hr | hns)
    · constructor <;> simp [initManager, hr]
    · constructor <;> (cases hr : e.readOk <;> simp [initManager, hr, hns])
  · intro hfresh hidx hval
    exact (getToken_step e s hfresh hidx hval).2.2.1

/-- A second sample credential. -/
def sampleStored2 : StoredToken :=
  { refresh_token := "rb", access_token := "ab", timestamp := 1000000, expires_in := 3600,
    enable := true, projectId := "pb" }

/-- A third sample credential. -/
def sampleStored3 : StoredToken :=
  { refresh_token := "rc", access_token := "ac", timestamp := 1000000, expires_in := 3600,
    enable := true, projectId := "pc" }

/-- Further sample pool entries. -/
def sampleTok2 : PoolToken := { toStoredToken := sampleStored2, sessionId := 2 }

/-- Third sample pool entry. -/
def sampleTok3 : PoolToken := { toStoredToken := sampleStored3, sessionId := 3 }

/-- A sample environment where reads and writes succeed and every
refresh attempt fails transiently. -/
def envPool : Env :=
  { refreshResult := fun _ => .fail 500, writeOk := true, readOk := true,
    genProj := fun _ => "gp", genSess := fun _ => 9, now := 2000000 }

/-- A freshly loaded three-entry pool with the cursor at 1. -/
def sysThree : Sys :=
  { store := [sampleStored, sampleStored2, sampleStored3]
    cachedData := some [sampleStored, sampleStored2, sampleStored3]
    tokens := [sampleTok, sampleTok2, sampleTok3]
    currentIndex := 1, lastLoadTime := 1990000, usageStats := [] }

/-- Witness for C8 at a concrete state. -/
theorem rotation_cursor_invariant_witness :
    cursorInv (getToken envPool sysThree).2 ∧ (initManager envPool sysThree).currentIndex = 0 := by
  have h := rotation_cursor_invariant envPool sysThree sampleTok (fun _ => by decide)
  exact ⟨h.1, h.2.1 rfl (by decide)⟩

/-! ## C5: ring-order rotation -/

/-- `n` consecutive `getToken()` calls, collecting the returned
credentials and threading the manager state. -/
def getTokenCalls (e : Env) : Nat → Sys → List (Option PoolToken) × Sys
  | 0, s => ([], s)
  | Nat.succ n, s =>
    let r1 := getToken e s
    let rest := getTokenCalls e n r1.2
    (r1.1 :: rest.1, rest.2)

/-- Closed form of consecutive calls on a fresh, all-valid pool: the
`k`-th call returns the entry at `(cursor + k) mod N`. -/
theorem getTokenCalls_formula (e : Env) :
    ∀ (n : Nat) (s : Sys), e.now - s.lastLoadTime < 60000 →
      s.currentIndex < s.tokens.length →
      (∀ t ∈ s.tokens, isExpired e.now t = false) →
      (getTokenCalls e n s).1 =
        (List.range n).map fun k => s.tokens[(s.currentIndex + k) % s.tokens.length]? := by
  intro n
  induction n with
  | zero => intro s _ _ _; rfl
  | succ m ih =>
    intro s hfresh hidx hval
    have hstep := getToken_step e s hfresh hidx hval
    have hpos : 0 < s.tokens.length := Nat.lt_of_le_of_lt (Nat.zero_le _) hidx
    have h1fresh : e.now - (getToken e s).2.lastLoadTime < 60000 := by
      rw [hstep.2.2.2.1]; exact hfresh
    have h1idx : (getToken e s).2.currentIndex < (getToken e s).2.tokens.length := by
      rw [hstep.2.2.1, hstep.2.1]; exact Nat.mod_lt _ hpos
    have h1val : ∀ t ∈ (getToken e s).2.tokens, isExpired e.now t = false := by
      rw [hstep.2.1]; exact hval
    have hrec := ih (getToken e s).2 h1fresh h1idx h1val
    show ((getToken e s).1 :: (getTokenCalls e m (getToken e s).2).1) = _
    rw [hrec, hstep.1, List.range_succ_eq_map, List.map_cons, List.map_map]
    congr 1
    · simp [Nat.mod_eq_of_lt hidx]
    · apply List.map_congr_left
      intro k _
      rw [hstep.2.1, hstep.2.2.1, Nat.mod_add_mod]
      have : s.currentIndex + 1 + k = s.currentIndex + (Nat.succ k) := by omega
      rw [this]
      rfl

/-- C5: for every pool of size N with a fresh cache, an in-range cursor
and all credentials valid, N consecutive `getToken()` calls return the
pool entries in ring order starting at the cursor — a rotation of the
pool, hence each credential exactly once before any repeat. -/
theorem rotation_visits_each_once (e : Env) (s : Sys)
    (hfresh : e.now - s.lastLoadTime < 60000)
    (hidx : s.currentIndex < s.tokens.length)
    (hval : ∀ t ∈ s.tokens, isExpired e.now t = false) :
    (getTokenCalls e s.tokens.length s).1 = (s.tokens.rotate s.currentIndex).map some ∧
    (s.tokens.rotate s.currentIndex).Perm s.tokens := by
  refine ⟨?_, List.rotate_perm _ _⟩
  rw [getTokenCalls_formula e _ s hfresh hidx hval]
  apply List.ext_getElem?
  intro i
  by_cases hi : i < s.tokens.length
  · have hlt : (i + s.currentIndex) % s.tokens.length < s.tokens.length :=
      Nat.mod_lt _ (Nat.lt_of_le_of_lt (Nat.zero_le _) hi)
    simp [List.getElem?_map, List.getElem?_range hi, List.getElem?_rotate hi,
      List.getElem?_eq_getElem hlt, Nat.add_comm]
  · have hge : s.tokens.length ≤ i := Nat.le_of_not_lt hi
    rw [List.getElem?_eq_none, List.getElem?_eq_none] <;>
      simp [List.length_rotate, hge]

/-- Witness for C5 on a concrete three-entry pool. -/
theorem rotation_visits_each_once_witness :
    (getTokenCalls envPool sysThree.tokens.length sysThree).1 =
      (sysThree.tokens.rotate sysThree.currentIndex).map some ∧
    (sysThree.tokens.rotate sysThree.currentIndex).Perm sysThree.tokens :=
  rotation_visits_each_once envPool sysThree (by decide) (by decide) (by decide)

/-! ## C7: no-throw totality of getToken -/

theorem filter_enable_assignProjectIds (g : Nat → String) :
    ∀ (i : Nat) (l : List StoredToken), (∀ t ∈ l, t.enable = false) →
      (assignProjectIds g i l).filter (fun t => t.enable) = [] := by
  intro i l
  induction l generalizing i with
  | nil => intro _; rfl
  | cons a l ih =>
    intro h
    have ha : a.enable = false := h a (List.mem_cons_self a l)
    have htl := ih (i + 1) fun t ht => h t (List.mem_cons_of_mem a ht)
    by_cases hp : a.projectId = ""
    · simp [assignProjectIds, List.filter_cons, hp, ha, htl]
    · simp [assignProjectIds, List.filter_cons, hp, ha, htl]

/-- After a load that reads either nothing usable (all credentials
disabled) or nothing at all (read failure), the pool is empty. -/
theorem initManager_tokens_empty (e : Env) (s : Sys)
    (hstore : e.readOk = false ∨ ∀ t ∈ s.store, t.enable = false) :
    (initManager e s).tokens = [] := by
  cases hr : e.readOk with
  | false => simp [initManager, hr]
  | true =>
    rcases hstore with h | h
    · rw [hr] at h; cases h
    · simp only [initManager, hr, if_true]
      cases hns : (s.store.any (fun u => u.projectId == "") && !e.writeOk) with
      | true => simp [hns]
      | false =>
        simp only [hns, Bool.false_eq_true, if_false]
        rw [filter_enable_assignProjectIds e.genProj 0 s.store h]
        rfl

/-- The rotation loop returns `null` when every credential in the pool
is expired and every refresh fails with a permanent-rejection status
(403 or 400): each iteration disables the credential at the cursor
until the pool is exhausted. -/
theorem getTokenLoop_allFail (e : Env) :
    ∀ (fuel : Nat) (s : Sys), s.tokens.length ≤ fuel → cursorInv s →
      (∀ t ∈ s.tokens, isExpired e.now t = true) →
      (∀ t ∈ s.tokens, ∃ c, e.refreshResult t.refresh_token = RefreshResult.fail c ∧
        (c = 403 ∨ c = 400)) →
      (getTokenLoop e fuel s).1 = none := by
  intro fuel
  induction fuel with
  | zero => intro s _ _ _ _; rfl
  | succ m ih =>
    intro s hlen hinv hexp hfail
    cases hg : s.tokens[s.currentIndex]? with
    | none => simp [getTokenLoop, hg]
    | some token =>
      have hmem : token ∈ s.tokens := List.getElem?_mem hg
      have hext := hexp token hmem
      obtain ⟨c, hc, hc403⟩ := hfail token hmem
      have hb : (c == 403 || c == 400) = true := by rcases hc403 with rfl | rfl <;> rfl
      simp only [getTokenLoop, hg, hext, if_true, hc, hb]
      by_cases hz : (disableToken e.writeOk s token).tokens.length = 0
      · rw [if_pos hz]
      · rw [if_neg hz]
        have hlt : (disableToken e.writeOk s token).tokens.length < s.tokens.length := by
          rw [disableToken_tokens]
          exact filter_length_lt _ _ token hmem (by simp [bne])
        refine ih _ (by omega) (disableToken_cursorInv e.writeOk s token) ?_ ?_ <;>
          (intro t ht
           rw [disableToken_tokens] at ht)
        · exact hexp t (List.mem_of_mem_filter ht)
        · exact hfail t (List.mem_of_mem_filter ht)

/-- C7: `getToken()` never throws, and signals "no credential" by
returning null both on an empty pool (whose backing store offers no
enabled credential, or cannot be read) and on a pool whose every
credential fails permanently within the single call.  In the embedding
`getToken` is a total function into `Option`, so no exception can
escape; the two conjuncts show the advertised `none` results. -/
theorem getToken_never_throws (e : Env) (s : Sys) :
    (s.tokens = [] → (e.readOk = false ∨ ∀ t ∈ s.store, t.enable = false) →
      (getToken e s).1 = none) ∧
    (e.now - s.lastLoadTime < 60000 → s.currentIndex < s.tokens.length →
      (∀ t ∈ s.tokens, isExpired e.now t = true) →
      (∀ t ∈ s.tokens, ∃ c, e.refreshResult t.refresh_token = RefreshResult.fail c ∧
        (c = 403 ∨ c = 400)) →
      (getToken e s).1 = none) := by
  constructor
  · intro hemp hstore
    have hload : (loadTokens e s).tokens = [] := by
      unfold loadTokens
      rw [if_neg (by simp [hemp])]
      exact initManager_tokens_empty e s hstore
    unfold getToken
    rw [if_pos (by simp [hload])]
  · intro hfresh hidx hexp hfail
    have hpos : 0 < s.tokens.length := Nat.lt_of_le_of_lt (Nat.zero_le _) hidx
    have hload : loadTokens e s = s := by
      unfold loadTokens
      rw [if_pos ⟨hfresh, hpos⟩]
    unfold getToken
    simp only [hload, if_neg (by omega : ¬ s.tokens.length = 0)]
    exact getTokenLoop_allFail e s.tokens.length s (Nat.le_refl _) (fun _ => hidx) hexp hfail

/-- A state whose pool is empty and whose store holds only a disabled
credential. -/
def sysEmpty : Sys :=
  { store := [{ sampleStored with enable := false }]
    cachedData := some [{ sampleStored with enable := false }]
    tokens := [], currentIndex := 0, lastLoadTime := 0, usageStats := [] }

/-- An environment whose every refresh attempt is permanently
rejected with status 403. -/
def env403 : Env :=
  { refreshResult := fun _ => .fail 403, writeOk := true, readOk := true,
    genProj := fun _ => "gp", genSess := fun _ => 9, now := 5000000 }

/-- `sysThree` at a time when every credential is expired and the cache
is still fresh. -/
def sysThreeExpired : Sys := { sysThree with lastLoadTime := 4990000 }

/-- Witness for C7: concrete empty-pool and all-permanent-failure
instantiations both yield `none`. -/
theorem getToken_never_throws_witness :
    (getToken envPool sysEmpty).1 = none ∧ (getToken env403 sysThreeExpired).1 = none :=
  ⟨(getToken_never_throws envPool sysEmpty).1 rfl (Or.inr (by decide)),
   (getToken_never_throws env403 sysThreeExpired).2 (by decide) (by decide) (by decide)
     (fun t _ => ⟨403, rfl, Or.inl rfl⟩)⟩

/-! ## C10: advance-then-return and the handleRequestError mismatch -/

/-- C10: `getToken` advances the cursor before returning, so right
after a successful call on a pool of at least two credentials with
distinct access tokens, the cursor indexes the credential FOLLOWING the
returned one; `handleRequestError` therefore compares the failing
access token against a different credential, and in this mismatch case
it delegates straight to `getToken()` — the failed credential is
neither refreshed nor disabled and the pool is unchanged. -/
theorem advance_then_return_mismatch (e : Env) (s : Sys)
    (hfresh : e.now - s.lastLoadTime < 60000)
    (hlen : 2 ≤ s.tokens.length)
    (hidx : s.currentIndex < s.tokens.length)
    (hval : ∀ t ∈ s.tokens, isExpired e.now t = false)
    (hnd : (s.tokens.map (fun t => t.access_token)).Nodup) :
    ∃ t u, (getToken e s).1 = some t ∧
      (getToken e s).2.tokens[(getToken e s).2.currentIndex]? = some u ∧
      u.access_token ≠ t.access_token ∧
      handleRequestError e 403 t.access_token (getToken e s).2 =
        getToken e (getToken e s).2 ∧
      (handleRequestError e 403 t.access_token (getToken e s).2).2.tokens = s.tokens := by
  have hstep := getToken_step e s hfresh hidx hval
  have hpos : 0 < s.tokens.length := by omega
  have hc1 : (s.currentIndex + 1) % s.tokens.length < s.tokens.length := Nat.mod_lt _ hpos
  have hne : (s.currentIndex + 1) % s.tokens.length ≠ s.currentIndex := by
    rcases Nat.lt_or_ge (s.currentIndex + 1) s.tokens.length with h | h
    · rw [Nat.mod_eq_of_lt h]; omega
    · have hcn : s.currentIndex + 1 = s.tokens.length := by omega
      rw [hcn, Nat.mod_self]; omega
  have hneq : (s.tokens.get ⟨(s.currentIndex + 1) % s.tokens.length, hc1⟩).access_token ≠
      (s.tokens.get ⟨s.currentIndex, hidx⟩).access_token := by
    intro heq
    have hml1 : (s.currentIndex + 1) % s.tokens.length <
        (s.tokens.map (fun t => t.access_token)).length := by simpa using hc1
    have hml2 : s.currentIndex < (s.tokens.map (fun t => t.access_token)).length := by
      simpa using hidx
    have h1 : (s.tokens.map (fun t => t.access_token)).get
        ⟨(s.currentIndex + 1) % s.tokens.length, hml1⟩ =
        (s.tokens.map (fun t => t.access_token)).get ⟨s.currentIndex, hml2⟩ := by
      simp only [List.get_eq_getElem, List.getElem_map]
      simpa [List.get_eq_getElem] using heq
    have h2 := (List.Nodup.get_inj_iff hnd).mp h1
    exact hne (by simpa using congrArg Fin.val h2)
  have hu : (getToken e s).2.tokens[(getToken e s).2.currentIndex]? =
      some (s.tokens.get ⟨(s.currentIndex + 1) % s.tokens.length, hc1⟩) := by
    rw [hstep.2.1, hstep.2.2.1, List.get_eq_getElem]
    exact List.getElem?_eq_getElem hc1
  have hbeq : ((s.tokens.get ⟨(s.currentIndex + 1) % s.tokens.length, hc1⟩).access_token ==
      (s.tokens.get ⟨s.currentIndex, hidx⟩).access_token) = false := beq_eq_false_iff_ne.mpr hneq
  have hdeleg : handleRequestError e 403 (s.tokens.get ⟨s.currentIndex, hidx⟩).access_token
      (getToken e s).2 = getToken e (getToken e s).2 := by
    unfold handleRequestError
    simp only [beq_self_eq_true, if_true, hu, hbeq, Bool.false_eq_true, if_false]
  have hstep2 := getToken_step e (getToken e s).2
    (by rw [hstep.2.2.2.1]; exact hfresh)
    (by rw [hstep.2.2.1, hstep.2.1]; exact hc1)
    (by rw [hstep.2.1]; exact hval)
  refine ⟨s.tokens.get ⟨s.currentIndex, hidx⟩,
    s.tokens.get ⟨(s.currentIndex + 1) % s.tokens.length, hc1⟩, ?_, hu, hneq, hdeleg, ?_⟩
  · rw [hstep.1, List.get_eq_getElem]
    exact List.getElem?_eq_getElem hidx
  · rw [hdeleg, hstep2.2.1, hstep.2.1]

/-- Witness for C10 on the concrete three-entry pool. -/
theorem advance_then_return_mismatch_witness :
    ∃ t u, (getToken envPool sysThree).1 = some t ∧
      (getToken envPool sysThree).2.tokens[(getToken envPool sysThree).2.currentIndex]? = some u ∧
      u.access_token ≠ t.access_token ∧
      handleRequestError envPool 403 t.access_token (getToken envPool sysThree).2 =
        getToken envPool (getToken envPool sysThree).2 ∧
      (handleRequestError envPool 403 t.access_token (getToken envPool sysThree).2).2.tokens =
        sysThree.tokens :=
  advance_then_return_mismatch envPool sysThree (by decide) (by decide) (by decide) (by decide)
    (by decide)

/-! ## C4: permanent rejection during refresh -/

/-- An environment in which the first sample credential's refresh is
rejected with status 401 and every other refresh succeeds. -/
def env401 : Env :=
  { refreshResult := fun rt => if rt = "ra" then .fail 401 else .ok "na" 3600,
    writeOk := true, readOk := true, genProj := fun _ => "gp", genSess := fun _ => 9,
    now := 5000000 }

/-- A freshly loaded two-entry pool whose credentials are both expired
at `env401.now`. -/
def sysTwo : Sys :=
  { store := [sampleStored, sampleStored2]
    cachedData := some [sampleStored, sampleStored2]
    tokens := [sampleTok, sampleTok2]
    currentIndex := 0, lastLoadTime := 4990000, usageStats := [] }

/-- C4 counterexample: a refresh failure with status 401 — a
"401/403-equivalent" permanent rejection per the claim — does NOT
disable the credential: `getToken`'s catch tests
`statusCode === 403 || statusCode === 400`, so the 401-failing
credential stays in the in-memory pool and its persisted record keeps
`enable = true`. -/
theorem refresh_401_not_disabled :
    isExpired env401.now sampleTok = true ∧
    env401.refreshResult sampleTok.refresh_token = RefreshResult.fail 401 ∧
    sampleTok ∈ (getToken env401 sysTwo).2.tokens ∧
    ((getToken env401 sysTwo).2.store.map fun t => (t.refresh_token, t.enable)) =
      [("ra", true), ("rb", true)] := by decide

/-- One iteration of the rotation loop on a valid credential at the
cursor: advance modulo the pool length, record usage, return it. -/
theorem getTokenLoop_valid_step (e : Env) (m : Nat) (s : Sys)
    (hidx : s.currentIndex < s.tokens.length)
    (hv : isExpired e.now (s.tokens.get ⟨s.currentIndex, hidx⟩) = false) :
    getTokenLoop e (m + 1) s =
      (some (s.tokens.get ⟨s.currentIndex, hidx⟩),
       recordUsage e.now { s with currentIndex := (s.currentIndex + 1) % s.tokens.length }
         (s.tokens.get ⟨s.currentIndex, hidx⟩)) := by
  have hg : s.tokens[s.currentIndex]? = some (s.tokens.get ⟨s.currentIndex, hidx⟩) := by
    rw [List.get_eq_getElem]
    exact List.getElem?_eq_getElem hidx
  simp only [getTokenLoop, hg, hv, Bool.false_eq_true, if_false]

/-- `saveToFile`'s forEach over a pool whose refresh tokens are
distinct, against a cache that extends the stripped pool by unrelated
records: each in-memory token lands on its own record, so the result is
the stripped image of the (possibly field-mutated) pool. -/
theorem foldl_updateStored_eq (f : PoolToken → PoolToken)
    (hf : ∀ u, (f u).refresh_token = u.refresh_token) :
    ∀ (ts : List PoolToken) (pre : List StoredToken),
      (∀ u ∈ ts, ∀ v ∈ pre, v.refresh_token ≠ u.refresh_token) →
      ((ts.map fun u => u.refresh_token).Nodup) →
      (ts.map f).foldl updateStored (pre ++ ts.map PoolToken.toStoredToken) =
        pre ++ ts.map fun u => (f u).toStoredToken := by
  intro ts
  induction ts with
  | nil => intro pre _ _; simp
  | cons a rest ih =>
    intro pre hdisj hnd
    have hpre : pre.findIdx? (fun u => u.refresh_token == (f a).refresh_token) = none := by
      rw [List.findIdx?_eq_none_iff]
      intro v hv
      rw [hf]
      simpa using beq_eq_false_iff_ne.mpr (hdisj a (List.mem_cons_self a rest) v hv)
    have hhead : ((PoolToken.toStoredToken a).refresh_token == (f a).refresh_token) = true := by
      rw [hf]
      exact beq_self_eq_true _
    have hstep : updateStored (pre ++ (a :: rest).map PoolToken.toStoredToken) (f a) =
        pre ++ (f a).toStoredToken :: rest.map PoolToken.toStoredToken := by
      unfold updateStored
      rw [List.map_cons, List.findIdx?_append, hpre, List.findIdx?_cons, hhead]
      simp only [if_true, Option.map_some', Option.none_or, Nat.zero_add]
      rw [List.set_append_right _ _ (Nat.le_refl pre.length)]
      simp
    have hnd2 : ((rest.map fun u => u.refresh_token).Nodup) := by
      rw [List.map_cons] at hnd
      exact hnd.of_cons
    have hnotmem : a.refresh_token ∉ rest.map fun u => u.refresh_token := by
      rw [List.map_cons] at hnd
      exact hnd.not_mem
    have hdisj2 : ∀ u ∈ rest, ∀ v ∈ pre ++ [(f a).toStoredToken],
        v.refresh_token ≠ u.refresh_token := by
      intro u hu v hv
      rcases List.mem_append.mp hv with hv | hv
      · exact hdisj u (List.mem_cons_of_mem a hu) v hv
      · rcases List.mem_singleton.mp hv with rfl
        show (f a).refresh_token ≠ u.refresh_token
        rw [hf]
        intro hcontra
        exact hnotmem (hcontra ▸ List.mem_map_of_mem (fun u => u.refresh_token) hu)
    calc ((a :: rest).map f).foldl updateStored (pre ++ (a :: rest).map PoolToken.toStoredToken)
        = (rest.map f).foldl updateStored
            (updateStored (pre ++ (a :: rest).map PoolToken.toStoredToken) (f a)) := by
          simp only [List.map_cons, List.foldl_cons]
      _ = (rest.map f).foldl updateStored
            ((pre ++ [(f a).toStoredToken]) ++ rest.map PoolToken.toStoredToken) := by
          rw [hstep, List.append_assoc]
          rfl
      _ = (pre ++ [(f a).toStoredToken]) ++ rest.map (fun u => (f u).toStoredToken) :=
          ih (pre ++ [(f a).toStoredToken]) hdisj2 hnd2
      _ = pre ++ (a :: rest).map (fun u => (f u).toStoredToken) := by
          rw [List.append_assoc]
          rfl

/-- The persisted store right after disabling `t0` in a state whose
cache equals the stripped pool: `t0`'s record gets `enable := false`
and every other record is rewritten to its own unchanged value. -/
theorem disableToken_store_sync (w : Bool) (hw : w = true) (s : Sys) (t0 : PoolToken)
    (hsync : s.cachedData = some (s.tokens.map PoolToken.toStoredToken))
    (hnd : (s.tokens.map fun u => u.refresh_token).Nodup) :
    (disableToken w s t0).store =
      s.tokens.map fun u =>
        if u.refresh_token == t0.refresh_token
        then { u.toStoredToken with enable := false } else u.toStoredToken := by
  have hf : ∀ u : PoolToken, ((fun u => if u.refresh_token == t0.refresh_token
      then { u with enable := false } else u) u).refresh_token = u.refresh_token := by
    intro u
    by_cases h : u.refresh_token = t0.refresh_token <;> simp [h]
  subst hw
  have hfold := foldl_updateStored_eq
    (fun u => if u.refresh_token == t0.refresh_token then { u with enable := false } else u)
    hf s.tokens [] (by intro u _ v hv; cases hv) hnd
  rw [List.nil_append, List.nil_append] at hfold
  show (saveToFile true { s with tokens := s.tokens.map fun u =>
      if u.refresh_token == t0.refresh_token then { u with enable := false } else u }).store = _
  unfold saveToFile
  dsimp only
  rw [hsync]
  dsimp only
  rw [hfold]
  apply List.map_congr_left
  intro u _
  by_cases h : u.refresh_token = t0.refresh_token <;> simp [h]

/-- C4 amended: the statuses the code treats as permanent rejection are
403 and 400 (NOT 401, which is handled as transient).  For every
credential whose refresh fails with status 403 or 400, `getToken()`
disables it and removes it from the in-memory pool immediately, neither
this call nor the next one can return it, and the persisted store
records `enable = false` for it while every other credential's fields
are left untouched. -/
theorem permanent_rejection_disables (e : Env) (s : Sys)
    (hfresh : e.now - s.lastLoadTime < 60000)
    (hlen : 2 ≤ s.tokens.length)
    (hidx : s.currentIndex < s.tokens.length)
    (hnd : (s.tokens.map fun u => u.refresh_token).Nodup)
    (hsync : s.cachedData = some (s.tokens.map PoolToken.toStoredToken))
    (hw : e.writeOk = true) :
    ∀ t0, t0 = s.tokens.get ⟨s.currentIndex, hidx⟩ →
      isExpired e.now t0 = true →
      (e.refreshResult t0.refresh_token = RefreshResult.fail 403 ∨
       e.refreshResult t0.refresh_token = RefreshResult.fail 400) →
      (∀ u ∈ s.tokens, u.refresh_token ≠ t0.refresh_token → isExpired e.now u = false) →
      ((getToken e s).2.tokens =
          s.tokens.filter (fun u => u.refresh_token != t0.refresh_token) ∧
        (∀ u, (getToken e s).1 = some u → u.refresh_token ≠ t0.refresh_token) ∧
        (∀ u, (getToken e (getToken e s).2).1 = some u →
          u.refresh_token ≠ t0.refresh_token) ∧
        (getToken e s).2.store = (s.tokens.map fun u =>
          if u.refresh_token == t0.refresh_token
          then { u.toStoredToken with enable := false } else u.toStoredToken) ∧
        (∀ v ∈ (getToken e s).2.store, v.refresh_token = t0.refresh_token →
          v.enable = false) ∧
        (∀ i (hi : i < s.tokens.length),
          (s.tokens.get ⟨i, hi⟩).refresh_token ≠ t0.refresh_token →
          (getToken e s).2.store[i]? = some ((s.tokens.get ⟨i, hi⟩).toStoredToken)) ∧
        (s.store = s.tokens.map PoolToken.toStoredToken →
          ∀ i (hi : i < s.tokens.length),
            (s.tokens.get ⟨i, hi⟩).refresh_token ≠ t0.refresh_token →
            (getToken e s).2.store[i]? = s.store[i]?)) := by
  intro t0 ht0 hexp hfail hval
  have hpos : 0 < s.tokens.length := by omega
  have hc1 : (s.currentIndex + 1) % s.tokens.length < s.tokens.length := Nat.mod_lt _ hpos
  have hneidx : (s.currentIndex + 1) % s.tokens.length ≠ s.currentIndex := by
    rcases Nat.lt_or_ge (s.currentIndex + 1) s.tokens.length with h | h
    · rw [Nat.mod_eq_of_lt h]; omega
    · have hcn : s.currentIndex + 1 = s.tokens.length := by omega
      rw [hcn, Nat.mod_self]; omega
  have hne_rt : (s.tokens.get ⟨(s.currentIndex + 1) % s.tokens.length, hc1⟩).refresh_token ≠
      t0.refresh_token := by
    rw [ht0]
    intro heq
    have hml1 : (s.currentIndex + 1) % s.tokens.length <
        (s.tokens.map fun u => u.refresh_token).length := by simpa using hc1
    have hml2 : s.currentIndex < (s.tokens.map fun u => u.refresh_token).length := by
      simpa using hidx
    have h1 : (s.tokens.map fun u => u.refresh_token).get
        ⟨(s.currentIndex + 1) % s.tokens.length, hml1⟩ =
        (s.tokens.map fun u => u.refresh_token).get ⟨s.currentIndex, hml2⟩ := by
      simp only [List.get_eq_getElem, List.getElem_map]
      simpa [List.get_eq_getElem] using heq
    have h2 := (List.Nodup.get_inj_iff hnd).mp h1
    exact hneidx (by simpa using congrArg Fin.val h2)
  have hrestne : s.tokens.filter (fun u => u.refresh_token != t0.refresh_token) ≠ [] := by
    intro hemp
    have hmem2 : s.tokens.get ⟨(s.currentIndex + 1) % s.tokens.length, hc1⟩ ∈
        s.tokens.filter (fun u => u.refresh_token != t0.refresh_token) :=
      List.mem_filter.mpr ⟨List.get_mem _ _ _, by simpa [bne] using hne_rt⟩
    rw [hemp] at hmem2
    cases hmem2
  have hload : loadTokens e s = s := by
    unfold loadTokens
    rw [if_pos ⟨hfresh, hpos⟩]
  have hg : s.tokens[s.currentIndex]? = some t0 := by
    rw [ht0, List.get_eq_getElem]
    exact List.getElem?_eq_getElem hidx
  have h1tok : (disableToken e.writeOk s t0).tokens =
      s.tokens.filter (fun u => u.refresh_token != t0.refresh_token) :=
    disableToken_tokens e.writeOk s t0
  have h1ne : (disableToken e.writeOk s t0).tokens ≠ [] := by rw [h1tok]; exact hrestne
  have h1len : ¬ (disableToken e.writeOk s t0).tokens.length = 0 := by
    intro hz
    exact h1ne (List.length_eq_zero.mp hz)
  have h1idx : (disableToken e.writeOk s t0).currentIndex <
      (disableToken e.writeOk s t0).tokens.length :=
    disableToken_cursorInv e.writeOk s t0 h1ne
  have h1llt : (disableToken e.writeOk s t0).lastLoadTime = s.lastLoadTime :=
    disableToken_lastLoadTime e.writeOk s t0
  have h1store : (disableToken e.writeOk s t0).store =
      s.tokens.map (fun u =>
        if u.refresh_token == t0.refresh_token
        then { u.toStoredToken with enable := false } else u.toStoredToken) := by
    exact disableToken_store_sync e.writeOk hw s t0 hsync hnd
  have hmemget : ∀ x, (disableToken e.writeOk s t0).tokens[(disableToken e.writeOk
        s t0).currentIndex]? = some x →
      x ∈ s.tokens.filter (fun u => u.refresh_token != t0.refresh_token) := by
    intro x hx
    have hm : x ∈ (disableToken e.writeOk s t0).tokens := List.getElem?_mem hx
    rw [h1tok] at hm
    exact hm
  have hg1 : (disableToken e.writeOk s t0).tokens[(disableToken e.writeOk
      s t0).currentIndex]? = some ((disableToken e.writeOk s t0).tokens.get
      ⟨(disableToken e.writeOk s t0).currentIndex, h1idx⟩) := by
    rw [List.get_eq_getElem]
    exact List.getElem?_eq_getElem h1idx
  have hmem1 := hmemget _ hg1
  have h1v : isExpired e.now ((disableToken e.writeOk s t0).tokens.get
      ⟨(disableToken e.writeOk s t0).currentIndex, h1idx⟩) = false := by
    refine hval _ (List.mem_of_mem_filter hmem1) ?_
    have := (List.mem_filter.mp hmem1).2
    simpa [bne] using this
  obtain ⟨m, hm⟩ : ∃ m, s.tokens.length = m + 1 := ⟨s.tokens.length - 1, by omega⟩
  obtain ⟨m2, hm2⟩ : ∃ m2, m = m2 + 1 := ⟨m - 1, by omega⟩
  have hloop : getTokenLoop e (m + 1) s = getTokenLoop e m (disableToken e.writeOk s t0) := by
    rcases hfail with hf | hf <;>
      (simp only [getTokenLoop, hg, hexp, if_true, hf]
       rw [if_pos (by decide), if_neg h1len])
  have hrun : getToken e s =
      (some ((disableToken e.writeOk s t0).tokens.get
        ⟨(disableToken e.writeOk s t0).currentIndex, h1idx⟩),
       recordUsage e.now
         { disableToken e.writeOk s t0 with
           currentIndex := ((disableToken e.writeOk s t0).currentIndex + 1) %
             (disableToken e.writeOk s t0).tokens.length }
         ((disableToken e.writeOk s t0).tokens.get
           ⟨(disableToken e.writeOk s t0).currentIndex, h1idx⟩)) := by
    unfold getToken
    simp only [hload]
    rw [if_neg (by omega : ¬ s.tokens.length = 0), hm, hloop, hm2]
    exact getTokenLoop_valid_step e m2 (disableToken e.writeOk s t0) h1idx h1v
  have hrt1 : ((disableToken e.writeOk s t0).tokens.get
      ⟨(disableToken e.writeOk s t0).currentIndex, h1idx⟩).refresh_token ≠
      t0.refresh_token := by
    have := (List.mem_filter.mp hmem1).2
    simpa [bne] using this
  have hconc1 : (getToken e s).2.tokens =
      s.tokens.filter (fun u => u.refresh_token != t0.refresh_token) := by
    rw [hrun]
    show (recordUsage _ _ _).tokens = _
    rw [recordUsage_tokens]
    exact h1tok
  have hconc4 : (getToken e s).2.store = (s.tokens.map fun u =>
      if u.refresh_token == t0.refresh_token
      then { u.toStoredToken with enable := false } else u.toStoredToken) := by
    rw [hrun]
    show (recordUsage _ _ _).store = _
    rw [recordUsage_store]
    exact h1store
  have hconc6 : ∀ i (hi : i < s.tokens.length),
      (s.tokens.get ⟨i, hi⟩).refresh_token ≠ t0.refresh_token →
      (getToken e s).2.store[i]? = some ((s.tokens.get ⟨i, hi⟩).toStoredToken) := by
    intro i hi hirt
    rw [hconc4, List.getElem?_map, List.getElem?_eq_getElem hi]
    have hbeq : ((s.tokens.get ⟨i, hi⟩).refresh_token == t0.refresh_token) = false :=
      beq_eq_false_iff_ne.mpr hirt
    simp only [Option.map_some', List.get_eq_getElem] at hbeq ⊢
    rw [hbeq]
    simp
  refine ⟨hconc1, ?_, ?_, hconc4, ?_, hconc6, ?_⟩
  · intro u hu
    rw [hrun] at hu
    cases hu
    exact hrt1
  · intro u hu
    have h2llt : (getToken e s).2.lastLoadTime = s.lastLoadTime := by
      rw [hrun]
      show (recordUsage _ _ _).lastLoadTime = _
      rw [recordUsage_lastLoadTime]
      exact h1llt
    have h2idx : (getToken e s).2.currentIndex < (getToken e s).2.tokens.length := by
      rw [hrun]
      show (recordUsage _ _ _).currentIndex < (recordUsage _ _ _).tokens.length
      rw [recordUsage_currentIndex, recordUsage_tokens]
      exact Nat.mod_lt _ (Nat.lt_of_le_of_lt (Nat.zero_le _) h1idx)
    have h2val : ∀ v ∈ (getToken e s).2.tokens, isExpired e.now v = false := by
      intro v hv
      rw [hconc1] at hv
      refine hval v (List.mem_of_mem_filter hv) ?_
      have := (List.mem_filter.mp hv).2
      simpa [bne] using this
    have hstep2 := getToken_step e (getToken e s).2 (by rw [h2llt]; exact hfresh) h2idx h2val
    rw [hstep2.1] at hu
    have hmemu : u ∈ (getToken e s).2.tokens := List.getElem?_mem hu
    rw [hconc1] at hmemu
    have := (List.mem_filter.mp hmemu).2
    simpa [bne] using this
  · intro v hv hvrt
    rw [hconc4] at hv
    obtain ⟨u, hu, hveq⟩ := List.mem_map.mp hv
    by_cases h : u.refresh_token = t0.refresh_token
    · rw [← hveq]
      simp [h]
    · have hv2 : v = u.toStoredToken := by rw [← hveq]; simp [h]
      rw [hv2] at hvrt
      exact absurd hvrt h
  · intro hstore i hi hirt
    rw [hconc6 i hi hirt, hstore, List.getElem?_map, List.getElem?_eq_getElem hi]
    simp [List.get_eq_getElem]

/-- A credential still valid at `t = 5000000`. -/
def sampleStoredFresh : StoredToken :=
  { refresh_token := "rb", access_token := "ab", timestamp := 4900000, expires_in := 3600,
    enable := true, projectId := "pb" }

/-- Pool entry for `sampleStoredFresh`. -/
def sampleTokFresh : PoolToken := { toStoredToken := sampleStoredFresh, sessionId := 2 }

/-- A second credential still valid at `t = 5000000`. -/
def sampleStoredFresh3 : StoredToken :=
  { refresh_token := "rc", access_token := "ac2", timestamp := 4900000, expires_in := 3600,
    enable := true, projectId := "pc" }

/-- Pool entry for `sampleStoredFresh3`. -/
def sampleTokFresh3 : PoolToken := { toStoredToken := sampleStoredFresh3, sessionId := 3 }

/-- An environment in which the first sample credential's refresh is
permanently rejected with status 403. -/
def envFail403 : Env :=
  { refreshResult := fun rt => if rt = "ra" then .fail 403 else .ok "na" 3600,
    writeOk := true, readOk := true, genProj := fun _ => "gp", genSess := fun _ => 9,
    now := 5000000 }

/-- A synchronized three-entry pool whose middle credential (under the
cursor) is expired and 403-rejected while its neighbours are valid. -/
def sysThreeMid : Sys :=
  { store := [sampleTokFresh.toStoredToken, sampleTok.toStoredToken,
      sampleTokFresh3.toStoredToken]
    cachedData := some [sampleTokFresh.toStoredToken, sampleTok.toStoredToken,
      sampleTokFresh3.toStoredToken]
    tokens := [sampleTokFresh, sampleTok, sampleTokFresh3]
    currentIndex := 1, lastLoadTime := 4990000, usageStats := [] }

/-- Witness for the amended C4 on the three-entry pool. -/
theorem permanent_rejection_disables_witness :
    (getToken envFail403 sysThreeMid).2.tokens =
      sysThreeMid.tokens.filter (fun u => u.refresh_token != sampleTok.refresh_token) ∧
    (∀ u, (getToken envFail403 sysThreeMid).1 = some u →
      u.refresh_token ≠ sampleTok.refresh_token) ∧
    (∀ u, (getToken envFail403 (getToken envFail403 sysThreeMid).2).1 = some u →
      u.refresh_token ≠ sampleTok.refresh_token) ∧
    (getToken envFail403 sysThreeMid).2.store = (sysThreeMid.tokens.map fun u =>
      if u.refresh_token == sampleTok.refresh_token
      then { u.toStoredToken with enable := false } else u.toStoredToken) ∧
    (∀ v ∈ (getToken envFail403 sysThreeMid).2.store,
      v.refresh_token = sampleTok.refresh_token → v.enable = false) ∧
    (∀ i (hi : i < sysThreeMid.tokens.length),
      (sysThreeMid.tokens.get ⟨i, hi⟩).refresh_token ≠ sampleTok.refresh_token →
      (getToken envFail403 sysThreeMid).2.store[i]? =
        some ((sysThreeMid.tokens.get ⟨i, hi⟩).toStoredToken)) ∧
    (sysThreeMid.store = sysThreeMid.tokens.map PoolToken.toStoredToken →
      ∀ i (hi : i < sysThreeMid.tokens.length),
        (sysThreeMid.tokens.get ⟨i, hi⟩).refresh_token ≠ sampleTok.refresh_token →
        (getToken envFail403 sysThreeMid).2.store[i]? = sysThreeMid.store[i]?) :=
  permanent_rejection_disables envFail403 sysThreeMid (by decide) (by decide) (by decide)
    (by decide) rfl rfl sampleTok (by decide) (by decide) (Or.inl (by decide)) (by decide)

/-! ## C2: the no-credentials error path -/

/-- A sample upstream behaviour that succeeds everywhere. -/
def upSampleOk : UpstreamBehavior :=
  { blocking := .ok ("hello", []), streamEvents := [.content "hello"], streamResult := .ok (),
    heartbeats := 0 }

/-- A streaming request with an ordinary message. -/
def reqPlain : ChatRequest :=
  { messages := some [{ role := "user", content := "tell me a story" }], model := "gpt",
    streamField := none }

/-- C2 counterexample: when the pool yields no credential and the
request omits `stream` (default true), the handler emits SSE framing
with HTTP status 200 — not a 5xx-equivalent before any stream framing.
The error travels as a content chunk inside the stream. -/
theorem no_token_default_stream_gives_sse :
    (chatCompletions reqPlain none upSampleOk).sse = true ∧
    (chatCompletions reqPlain none upSampleOk).status = 200 ∧
    (chatCompletions reqPlain none upSampleOk).chunks =
      [Chunk.content ("错误: " ++ noTokenMsg), Chunk.finish "stop", Chunk.done] := by decide

/-- C2 amended: when the Token Pool Manager yields no credential the
pipeline fails before any upstream dispatch, and surfaces the error as
a structured 500 body only when the client explicitly requested
`stream:false`; for every other request (including the default) the
error is rendered as an SSE error stream with status 200.  The
short-message heuristic has not run yet at this point, so the
pre-override flag decides the framing. -/
theorem no_credentials_error_response (req : ChatRequest) (msgs : List Msg)
    (up : UpstreamBehavior) (hm : req.messages = some msgs) :
    (req.streamField = some false →
      chatCompletions req none up =
        { status := 500, sse := false, chunks := [], body := some (.errorBody noTokenMsg),
          ended := true }) ∧
    (req.streamField ≠ some false →
      chatCompletions req none up = sseCatchResponse noTokenMsg) := by
  constructor
  · intro hf
    unfold chatCompletions
    rw [hm]
    simp [hf]
  · intro hf
    have hd : req.streamField.getD true = true := by
      cases hsf : req.streamField with
      | none => rfl
      | some b =>
        cases b with
        | false => exact absurd hsf hf
        | true => rfl
    unfold chatCompletions
    rw [hm]
    simp [hd]

/-- Witness for the amended C2. -/
theorem no_credentials_error_response_witness :
    chatCompletions { reqPlain with streamField := some false } none upSampleOk =
      { status := 500, sse := false, chunks := [], body := some (.errorBody noTokenMsg),
        ended := true } ∧
    chatCompletions reqPlain none upSampleOk = sseCatchResponse noTokenMsg :=
  ⟨(no_credentials_error_response { reqPlain with streamField := some false } _ upSampleOk
      rfl).1 rfl,
   (no_credentials_error_response reqPlain _ upSampleOk rfl).2 (by decide)⟩

/-! ## C1: dispatch-failure framing -/

/-- The upstream behaviour of a streaming call that delivers one
content fragment and then fails. -/
def upMidErr : UpstreamBehavior :=
  { blocking := .error "boom", streamEvents := [.content "hi"], streamResult := .error "boom",
    heartbeats := 0 }

/-- C1 counterexample: in REAL streaming mode, an upstream error after
the first chunk has been written (headers committed) produces no error
chunk, no finish chunk and no terminator — the outer catch is guarded
by `!res.headersSent` and has no else branch, so the connection is left
hanging (`ended = false`). -/
theorem midstream_error_leaves_connection_open :
    (chatCompletions { reqPlain with streamField := some true } (some sampleTok) upMidErr).ended
      = false ∧
    (chatCompletions { reqPlain with streamField := some true } (some sampleTok) upMidErr).chunks
      = [Chunk.content "hi"] ∧
    (chatCompletions { reqPlain with streamField := some true } (some sampleTok) upMidErr).sse
      = true := by decide

/-- C1 amended: the graceful-closure guarantee holds only in
fake-streaming mode, where a dispatch error after the stream was
committed is rendered as a final error-content chunk plus finish chunk
and terminator; in real streaming mode an error after the first chunk
leaves the response unterminated (nothing further is written and the
connection stays open).  When nothing has been sent yet, a structured
500 error body is returned for non-streaming requests, and an SSE error
sequence for streaming ones. -/
theorem dispatch_error_framing (req : ChatRequest) (msgs : List Msg) (tok : PoolToken)
    (up : UpstreamBehavior) (msg : String) (hm : req.messages = some msgs) :
    (isFakeStreaming req.model = true → effectiveStream req msgs = true →
      up.blocking = .error msg →
      chatCompletions req (some tok) up =
        { status := 200, sse := true
          chunks := Chunk.role :: (List.replicate up.heartbeats Chunk.heartbeat ++
            [Chunk.content ("Error: " ++ msg), Chunk.finish "stop", Chunk.done])
          body := none, ended := true }) ∧
    (isFakeStreaming req.model = false → isImageModel (actualModelOf req.model) = false →
      effectiveStream req msgs = true → up.streamEvents ≠ [] → up.streamResult = .error msg →
      chatCompletions req (some tok) up =
        { status := 200, sse := true, chunks := up.streamEvents.map chunkOfEvent
          body := none, ended := false }) ∧
    (effectiveStream req msgs = false → up.blocking = .error msg →
      chatCompletions req (some tok) up =
        { status := 500, sse := false, chunks := [], body := some (.errorBody msg),
          ended := true }) ∧
    (isFakeStreaming req.model = false → isImageModel (actualModelOf req.model) = false →
      effectiveStream req msgs = true → up.streamEvents = [] → up.streamResult = .error msg →
      chatCompletions req (some tok) up = sseCatchResponse msg) := by
  refine ⟨?_, ?_, ?_, ?_⟩
  · intro hfake hstream hb
    unfold chatCompletions
    rw [hm]
    simp [hfake, hstream, fakeStreamChunks, hb]
  · intro hfake himg hstream hne hres
    unfold chatCompletions
    rw [hm]
    cases hse : up.streamEvents with
    | nil => exact absurd hse hne
    | cons a l => simp [hfake, himg, hstream, hse, hres]
  · intro hstream hb
    unfold chatCompletions
    rw [hm]
    simp [hstream, hb]
  · intro hfake himg hstream hse hres
    unfold chatCompletions
    rw [hm]
    simp [hfake, himg, hstream, hse, hres, sseCatchResponse]

/-- A fake-streaming request. -/
def reqFake : ChatRequest :=
  { messages := some [{ role := "user", content := "do the thing please" }],
    model := "假流式/gpt", streamField := some true }

/-- Upstream behaviour that fails in blocking mode after one heartbeat
period. -/
def upBlockingErr : UpstreamBehavior :=
  { blocking := .error "boom", streamEvents := [], streamResult := .ok (), heartbeats := 1 }

/-- Witness for the amended C1: the fake-streaming graceful close and
the real-streaming hang at concrete inputs. -/
theorem dispatch_error_framing_witness :
    chatCompletions reqFake (some sampleTok) upBlockingErr =
      { status := 200, sse := true
        chunks := Chunk.role :: (List.replicate upBlockingErr.heartbeats Chunk.heartbeat ++
          [Chunk.content ("Error: " ++ "boom"), Chunk.finish "stop", Chunk.done])
        body := none, ended := true } ∧
    chatCompletions { reqPlain with streamField := some true } (some sampleTok) upMidErr =
      { status := 200, sse := true, chunks := upMidErr.streamEvents.map chunkOfEvent
        body := none, ended := false } :=
  ⟨(dispatch_error_framing reqFake _ sampleTok upBlockingErr "boom" rfl).1 (by decide)
      (by decide) rfl,
   (dispatch_error_framing { reqPlain with streamField := some true } _ sampleTok upMidErr
      "boom" rfl).2.1 (by decide) (by decide) (by decide) (by decide) rfl⟩

/-! ## C6: the fake-streaming chunk sequence -/

/-- Upstream behaviour returning an empty content with one tool call
after one heartbeat period. -/
def upToolOnly : UpstreamBehavior :=
  { blocking := .ok ("", ["t1"]), streamEvents := [], streamResult := .ok (), heartbeats := 1 }

/-- C6 counterexample: when the blocking call returns empty content
(e.g. a pure tool-call response), NO content chunk is emitted — the
code writes the content chunk only under `if (content)` — so the
claimed sequence `[role, heartbeats, (tool-calls?), content, finish,
terminator]` is wrong about the mandatory content chunk. -/
theorem fake_stream_empty_content_no_chunk :
    (chatCompletions reqFake (some sampleTok) upToolOnly).chunks =
      [Chunk.role, Chunk.heartbeat, Chunk.toolCalls ["t1"], Chunk.finish "tool_calls",
        Chunk.done] ∧
    ((chatCompletions reqFake (some sampleTok) upToolOnly).chunks.all
      fun c => !isContentChunk c) = true := by decide

theorem noHB_replicate (k : Nat) (rest : List Chunk) :
    noHeartbeatAfterFinish false (List.replicate k Chunk.heartbeat ++ rest) =
      noHeartbeatAfterFinish false rest := by
  induction k with
  | zero => rfl
  | succ n ih =>
    simpa [List.replicate_succ, noHeartbeatAfterFinish, isHeartbeatChunk, isFinishChunk]
      using ih

/-- C6 amended: in fake-streaming mode with a blocking call spanning
`k ≥ 1` heartbeat periods, the emitted sequence is exactly the role
chunk, `k` heartbeats, the tool-calls chunk if any tool call is
present, the content chunk IF the content is non-empty, the finish
chunk (`tool_calls` if a tool call was present, else `stop`), and the
terminator; no heartbeat occurs at or after the finish chunk. -/
theorem fake_streaming_chunk_sequence (req : ChatRequest) (msgs : List Msg) (tok : PoolToken)
    (up : UpstreamBehavior) (content : String) (toolCalls : List String)
    (hm : req.messages = some msgs)
    (hfake : isFakeStreaming req.model = true)
    (hstream : effectiveStream req msgs = true)
    (hb : up.blocking = .ok (content, toolCalls))
    (hhb : 1 ≤ up.heartbeats) :
    (chatCompletions req (some tok) up).chunks =
      Chunk.role :: (List.replicate up.heartbeats Chunk.heartbeat ++
        ((if toolCalls.isEmpty then [] else [Chunk.toolCalls toolCalls]) ++
         (if content == "" then [] else [Chunk.content content]) ++
         [Chunk.finish (if toolCalls.isEmpty then "stop" else "tool_calls"), Chunk.done])) ∧
    (chatCompletions req (some tok) up).ended = true ∧
    (chatCompletions req (some tok) up).chunks.count Chunk.heartbeat = up.heartbeats ∧
    noHeartbeatAfterFinish false (chatCompletions req (some tok) up).chunks = true := by
  have hmain : (chatCompletions req (some tok) up).chunks =
      Chunk.role :: (List.replicate up.heartbeats Chunk.heartbeat ++
        ((if toolCalls.isEmpty then [] else [Chunk.toolCalls toolCalls]) ++
         (if content == "" then [] else [Chunk.content content]) ++
         [Chunk.finish (if toolCalls.isEmpty then "stop" else "tool_calls"), Chunk.done])) := by
    unfold chatCompletions
    rw [hm]
    simp [hfake, hstream, fakeStreamChunks, hb]
  have hended : (chatCompletions req (some tok) up).ended = true := by
    unfold chatCompletions
    rw [hm]
    simp [hfake, hstream]
  refine ⟨hmain, hended, ?_, ?_⟩
  · rw [hmain]
    by_cases ht : toolCalls.isEmpty <;> by_cases hcn : content = "" <;>
      simp [ht, hcn, List.count_cons, List.count_append, List.count_replicate]
  · rw [hmain]
    show noHeartbeatAfterFinish false (Chunk.role :: _) = true
    rw [show ∀ l, noHeartbeatAfterFinish false (Chunk.role :: l) =
        noHeartbeatAfterFinish false l from fun l => rfl]
    rw [noHB_replicate]
    split <;> split <;> simp [noHeartbeatAfterFinish, isHeartbeatChunk, isFinishChunk]

/-- Upstream behaviour with non-empty content and two heartbeat
periods. -/
def upContent2 : UpstreamBehavior :=
  { blocking := .ok ("hello", []), streamEvents := [], streamResult := .ok (), heartbeats := 2 }

/-- Witness for the amended C6. -/
theorem fake_streaming_chunk_sequence_witness :
    (chatCompletions reqFake (some sampleTok) upContent2).chunks =
      Chunk.role :: (List.replicate upContent2.heartbeats Chunk.heartbeat ++
        ((if ([] : List String).isEmpty then [] else [Chunk.toolCalls []]) ++
         (if ("hello" == "") then [] else [Chunk.content "hello"]) ++
         [Chunk.finish (if ([] : List String).isEmpty then "stop" else "tool_calls"),
           Chunk.done])) ∧
    (chatCompletions reqFake (some sampleTok) upContent2).ended = true ∧
    (chatCompletions reqFake (some sampleTok) upContent2).chunks.count Chunk.heartbeat =
      upContent2.heartbeats ∧
    noHeartbeatAfterFinish false (chatCompletions reqFake (some sampleTok) upContent2).chunks =
      true :=
  fake_streaming_chunk_sequence reqFake _ sampleTok upContent2 "hello" [] rfl (by decide)
    (by decide) rfl (by decide)

/-! ## C9: the short-message streaming override -/

/-- A single-message request whose content is the empty string and
whose `stream` field is omitted. -/
def reqEmptyContent : ChatRequest :=
  { messages := some [{ role := "user", content := "" }], model := "gpt", streamField := none }

/-- A single-message request with the short content `"hi"` and the
`stream` field omitted. -/
def reqHi : ChatRequest :=
  { messages := some [{ role := "user", content := "hi" }], model := "gpt",
    streamField := none }

/-- C9 counterexample: a single message whose content is the empty
string (length 0, below the 20-character threshold) with `stream`
omitted is still served as SSE: the heuristic tests JS truthiness of
the content, which fails for `""`, so the default `stream = true`
stands. -/
theorem short_empty_message_still_streams :
    ("" : String).length < 20 ∧
    (chatCompletions reqEmptyContent (some sampleTok) upSampleOk).sse = true ∧
    (chatCompletions reqEmptyContent (some sampleTok) upSampleOk).body = none := by decide

/-- C9 amended: a request with exactly one message whose content is
NON-EMPTY and shorter than 20 characters, with the `stream` field
omitted, is served as a single non-streamed JSON completion — even
though the destructuring default of the streaming flag is `true`
(second conjunct: with the field omitted and the heuristic not
matching, the request would stream). -/
theorem short_message_forces_non_streaming (req : ChatRequest) (m : Msg) (tok : PoolToken)
    (up : UpstreamBehavior) (content : String) (toolCalls : List String)
    (hm : req.messages = some [m]) (hc : m.content ≠ "") (hlen : m.content.length < 20)
    (hsf : req.streamField = none) (hb : up.blocking = .ok (content, toolCalls)) :
    chatCompletions req (some tok) up =
      { status := 200, sse := false, chunks := []
        body := some (.completion content toolCalls
          (if toolCalls.isEmpty then "stop" else "tool_calls"))
        ended := true } ∧
    (∀ (req2 : ChatRequest) (msgs2 : List Msg), req2.streamField = none →
      isSingleShortMessage msgs2 = false → effectiveStream req2 msgs2 = true) := by
  constructor
  · have hshort : isSingleShortMessage [m] = true := by
      simp [isSingleShortMessage, bne, hc, hlen]
    have hstream : effectiveStream req [m] = false := by
      simp [effectiveStream, hshort, hsf]
    unfold chatCompletions
    rw [hm]
    simp [hstream, hb]
  · intro req2 msgs2 h1 h2
    simp [effectiveStream, h1, h2]

/-- Witness for the amended C9. -/
theorem short_message_forces_non_streaming_witness :
    chatCompletions reqHi (some sampleTok) upSampleOk =
      { status := 200, sse := false, chunks := []
        body := some (.completion "hello" []
          (if ([] : List String).isEmpty then "stop" else "tool_calls"))
        ended := true } ∧
    (∀ (req2 : ChatRequest) (msgs2 : List Msg), req2.streamField = none →
      isSingleShortMessage msgs2 = false → effectiveStream req2 msgs2 = true) :=
  short_message_forces_non_streaming reqHi { role := "user", content := "hi" } sampleTok
    upSampleOk "hello" [] rfl (by decide) (by decide) rfl rfl

end Antigravity
